import Mathlib

/-!
Verification of the blocking ADC trait core of the repository
(file src/embedded-hal/src/adc.rs).

The Rust code defines a trait `AdcChannel` with one required method
`measure_nv : (&mut self) -> Result<i64, Self::Error>` and two default
derived methods

  measure_uv: `Ok((self.measure_nv()? / 1_000) as i32)`
  measure_mv: `Ok(self.measure_uv()? / 1_000)`

plus an error taxonomy (`Error`, `ErrorKind`, `ErrorType`) and a blanket
forwarding implementation of `AdcChannel` for `&mut T`.

Shallow embedding: a channel implementation over a state type `σ` with
error type `ε` is a record of three state-passing functions
`σ → Except ε Int × σ` (each Rust method takes `&mut self`, so it may
both return a result and update the state).  Rust `i64`/`i32` division
by the positive constant 1000 truncates toward zero, which is exactly
`Int.tdiv`; the `as i32` narrowing is a two's-complement wrapping cast,
embedded as `wrap_i32` below.
-/

namespace EmbeddedHal.Adc

/-- Two's-complement narrowing of a (conceptually 64-bit) integer to a
32-bit signed integer, exactly the semantics of the Rust cast
`as i32`: the low 32 bits of the value, reinterpreted as signed. -/
def wrap_i32 (x : Int) : Int :=
  (x + 2147483648) % 4294967296 - 2147483648

/-- The signed 32-bit integer range, the values of Rust type `i32`. -/
def isI32 (x : Int) : Prop :=
  -2147483648 ≤ x ∧ x < 2147483648

/-- The signed 64-bit integer range, the values of Rust type `i64`. -/
def isI64 (x : Int) : Prop :=
  -9223372036854775808 ≤ x ∧ x < 9223372036854775808

instance (x : Int) : Decidable (isI32 x) := by unfold isI32; infer_instance

instance (x : Int) : Decidable (isI64 x) := by unfold isI64; infer_instance

/-- ADC error kind (`enum ErrorKind`), a non-exhaustive enumeration with,
at present, the single variant `Other`. -/
inductive ErrorKind where
  | Other
deriving DecidableEq

/-- The method `kind` of `impl Error for ErrorKind`: the body is `*self`. -/
def ErrorKind.kind (k : ErrorKind) : ErrorKind := k

/-- Derived `PartialEq`/`Eq` for `ErrorKind`: structural equality of the
single variant. -/
def ErrorKind.beq : ErrorKind → ErrorKind → Bool
  | .Other, .Other => true

/-- Derived `Ord`/`PartialOrd` for `ErrorKind`: comparison by variant;
with a single variant every comparison is `Equal`. -/
def ErrorKind.cmp : ErrorKind → ErrorKind → Ordering
  | .Other, .Other => .eq

/-- The `Display` rendering of `ErrorKind`
(`impl core::fmt::Display for ErrorKind`). -/
def ErrorKind.fmt : ErrorKind → String
  | .Other =>
    "A different error occurred. The original error may contain more information"

/-- The uninhabited error type `core::convert::Infallible` used for
channels that can never fail. -/
def Infallible : Type := Empty

/-- The method `kind` of `impl Error for core::convert::Infallible`:
the body is the empty match `match *self {}`. -/
def Infallible.kind : Infallible → ErrorKind :=
  fun e => nomatch e

/-- The `Error` trait of the code: a type satisfies it by providing a
`kind` projection to `ErrorKind`. -/
structure ErrorTrait (ε : Type) where
  kind : ε → ErrorKind

/-- The instance `impl Error for ErrorKind` as a record. -/
def errorKindError : ErrorTrait ErrorKind :=
  ⟨ErrorKind.kind⟩

/-- The instance `impl Error for core::convert::Infallible` as a record. -/
def infallibleError : ErrorTrait Infallible :=
  ⟨Infallible.kind⟩

/-- A channel implementation of the `AdcChannel` trait over a state type
`σ` with error type `ε`: the three methods, each taking `&mut self`. -/
structure AdcChannel (σ ε : Type) where
  measure_nv : σ → Except ε Int × σ
  measure_uv : σ → Except ε Int × σ
  measure_mv : σ → Except ε Int × σ

/-- The default body of `AdcChannel::measure_uv`:
`Ok((self.measure_nv()? / 1_000) as i32)`.  The `?` operator returns the
error of `measure_nv` unchanged (with whatever state that call left). -/
def measure_uv_default {σ ε : Type} (nv : σ → Except ε Int × σ)
    (s : σ) : Except ε Int × σ :=
  match nv s with
  | (Except.ok n, s1) => (Except.ok (wrap_i32 (Int.tdiv n 1000)), s1)
  | (Except.error e, s1) => (Except.error e, s1)

/-- The default body of `AdcChannel::measure_mv`:
`Ok(self.measure_uv()? / 1_000)`. -/
def measure_mv_default {σ ε : Type} (uv : σ → Except ε Int × σ)
    (s : σ) : Except ε Int × σ :=
  match uv s with
  | (Except.ok u, s1) => (Except.ok (Int.tdiv u 1000), s1)
  | (Except.error e, s1) => (Except.error e, s1)

/-- A channel implementation that provides only the required method
`measure_nv` and takes both derived methods from their trait defaults. -/
def AdcChannel.ofNv {σ ε : Type} (nv : σ → Except ε Int × σ) :
    AdcChannel σ ε :=
  ⟨nv, measure_uv_default nv, measure_mv_default (measure_uv_default nv)⟩

/-- The blanket implementation `impl<T> AdcChannel for &mut T`: each
method forwards to the underlying implementation unchanged
(`(*self).measure_nv()` and so on).  A mutably borrowed handle acts on
the same underlying state, so in the embedding the forwarding
implementation is a channel over the same state type. -/
def AdcChannel.mutRef {σ ε : Type} (c : AdcChannel σ ε) : AdcChannel σ ε :=
  ⟨fun s => c.measure_nv s, fun s => c.measure_uv s, fun s => c.measure_mv s⟩

/-- A concrete channel whose `measure_nv` always succeeds with the fixed
reading `n` and does not change the state. -/
def constChannel (n : Int) : AdcChannel Unit ErrorKind :=
  AdcChannel.ofNv (fun s => (Except.ok n, s))

/-- A concrete channel whose `measure_nv` always fails with
`ErrorKind::Other`. -/
def failChannel : AdcChannel Unit ErrorKind :=
  AdcChannel.ofNv (fun s => (Except.error ErrorKind.Other, s))

/-- Unfolding of the default `measure_uv` body on the success path. -/
lemma measure_uv_default_eq_ok {σ ε : Type} (nv : σ → Except ε Int × σ)
    (s s1 : σ) (n : Int) (h : nv s = (Except.ok n, s1)) :
    measure_uv_default nv s = (Except.ok (wrap_i32 (Int.tdiv n 1000)), s1) := by
  unfold measure_uv_default
  rw [h]

/-- Unfolding of the default `measure_uv` body on the failure path. -/
lemma measure_uv_default_eq_err {σ ε : Type} (nv : σ → Except ε Int × σ)
    (s s1 : σ) (e : ε) (h : nv s = (Except.error e, s1)) :
    measure_uv_default nv s = (Except.error e, s1) := by
  unfold measure_uv_default
  rw [h]

/-- Unfolding of the default `measure_mv` body on the success path. -/
lemma measure_mv_default_eq_ok {σ ε : Type} (uv : σ → Except ε Int × σ)
    (s s1 : σ) (u : Int) (h : uv s = (Except.ok u, s1)) :
    measure_mv_default uv s = (Except.ok (Int.tdiv u 1000), s1) := by
  unfold measure_mv_default
  rw [h]

/-- Unfolding of the default `measure_mv` body on the failure path. -/
lemma measure_mv_default_eq_err {σ ε : Type} (uv : σ → Except ε Int × σ)
    (s s1 : σ) (e : ε) (h : uv s = (Except.error e, s1)) :
    measure_mv_default uv s = (Except.error e, s1) := by
  unfold measure_mv_default
  rw [h]

/-- The wrapping cast always lands in the `i32` range. -/
lemma wrap_i32_range (x : Int) : isI32 (wrap_i32 x) := by
  unfold isI32 wrap_i32
  omega

/-- The wrapping cast is reduction modulo 2^32 reinterpreted as signed. -/
lemma wrap_i32_eq_mod (x : Int) :
    wrap_i32 x =
      if x % 4294967296 < 2147483648 then x % 4294967296
      else x % 4294967296 - 4294967296 := by
  unfold wrap_i32
  split <;> omega

/-- Truncating division of a nonnegative integer by 1000 does not grow it. -/
lemma tdiv_le_of_nonneg (u : Int) (h : 0 ≤ u) : Int.tdiv u 1000 ≤ u := by
  rw [Int.tdiv_eq_ediv h (by norm_num)]
  exact Int.ediv_le_self 1000 h

/-- Truncating division by 1000 preserves any symmetric range. -/
lemma tdiv_1000_range (u a : Int) (h1 : -a ≤ u) (h2 : u < a) :
    -a ≤ Int.tdiv u 1000 ∧ Int.tdiv u 1000 < a := by
  rcases le_or_lt 0 u with hu | hu
  · have hle := tdiv_le_of_nonneg u hu
    have h0 : 0 ≤ Int.tdiv u 1000 := Int.tdiv_nonneg hu (by norm_num)
    omega
  · have hv : (0 : Int) ≤ -u := by omega
    have hle := tdiv_le_of_nonneg (-u) hv
    have h0 : 0 ≤ Int.tdiv (-u) 1000 := Int.tdiv_nonneg hv (by norm_num)
    have hneg : Int.tdiv (-u) 1000 = -Int.tdiv u 1000 := Int.neg_tdiv u 1000
    omega

/-- C1: for every channel using the default derived operations, whenever
`measure_nv` returns `Ok n`, `measure_uv` returns `Ok` of `n` divided by
1000 truncating toward zero (`Int.tdiv`), then narrowed to a 32-bit
signed integer (`wrap_i32`). -/
theorem measure_uv_default_ok_tdiv_wrap {σ ε : Type}
    (nv : σ → Except ε Int × σ) (s s1 : σ) (n : Int)
    (h : nv s = (Except.ok n, s1)) :
    ((AdcChannel.ofNv nv).measure_uv s).1 =
      Except.ok (wrap_i32 (Int.tdiv n 1000)) := by
  show (measure_uv_default nv s).1 = _
  rw [measure_uv_default_eq_ok nv s s1 n h]

/-- Witness for C1 at the concrete reading 123456 nV. -/
theorem measure_uv_default_ok_tdiv_wrap_witness :
    ((AdcChannel.ofNv
        (fun s : Unit => ((Except.ok 123456 : Except ErrorKind Int), s))).measure_uv
      ()).1 = Except.ok 123 := by
  have h := measure_uv_default_ok_tdiv_wrap
    (fun s : Unit => ((Except.ok 123456 : Except ErrorKind Int), s)) () () 123456 rfl
  have hval : wrap_i32 (Int.tdiv 123456 1000) = (123 : Int) := by decide
  rw [hval] at h
  exact h

/-- C2: for every channel using the default derived operations,
`measure_mv` is the result of `measure_uv` divided by 1000 truncating
toward zero (chained double truncation through the already-truncated
microvolt value); in particular `measure_nv` returning `Ok (-1500)`
makes `measure_uv` return `Ok (-1)`, and `measure_nv` returning
`Ok (-1000000)` makes `measure_uv` return `Ok (-1000)` and `measure_mv`
return `Ok (-1)`. -/
theorem measure_mv_default_chained {σ ε : Type}
    (nv : σ → Except ε Int × σ) (s s1 : σ) (n : Int)
    (h : nv s = (Except.ok n, s1)) :
    ((AdcChannel.ofNv nv).measure_mv s).1 =
      Except.ok (Int.tdiv (wrap_i32 (Int.tdiv n 1000)) 1000) ∧
    (n = -1500 →
      ((AdcChannel.ofNv nv).measure_uv s).1 = Except.ok (-1)) ∧
    (n = -1000000 →
      ((AdcChannel.ofNv nv).measure_uv s).1 = Except.ok (-1000) ∧
      ((AdcChannel.ofNv nv).measure_mv s).1 = Except.ok (-1)) := by
  have hu := measure_uv_default_eq_ok nv s s1 n h
  have hm := measure_mv_default_eq_ok (measure_uv_default nv) s s1
    (wrap_i32 (Int.tdiv n 1000)) hu
  refine ⟨?_, ?_, ?_⟩
  · show (measure_mv_default (measure_uv_default nv) s).1 = _
    rw [hm]
  · rintro rfl
    have hval : wrap_i32 (Int.tdiv (-1500) 1000) = (-1 : Int) := by decide
    rw [hval] at hu
    show (measure_uv_default nv s).1 = _
    rw [hu]
  · rintro rfl
    have hval : wrap_i32 (Int.tdiv (-1000000) 1000) = (-1000 : Int) := by decide
    rw [hval] at hu hm
    have hval2 : Int.tdiv (-1000 : Int) 1000 = (-1 : Int) := by decide
    rw [hval2] at hm
    constructor
    · show (measure_uv_default nv s).1 = _
      rw [hu]
    · show (measure_mv_default (measure_uv_default nv) s).1 = _
      rw [hm]

/-- Witness for C2 at the concrete reading −1500 nV. -/
theorem measure_mv_default_chained_witness :
    ((AdcChannel.ofNv
        (fun s : Unit => ((Except.ok (-1500) : Except ErrorKind Int), s))).measure_uv
      ()).1 = Except.ok (-1) :=
  (measure_mv_default_chained
    (fun s : Unit => ((Except.ok (-1500) : Except ErrorKind Int), s))
    () () (-1500) rfl).2.1 rfl

/-- C3: for every channel using the default derived operations, if
`measure_nv` fails with error `e` then `measure_uv` and `measure_mv`
fail with the same `e`, unmodified (same error value and same resulting
state, so no conversion arithmetic happens on the error path). -/
theorem derived_error_propagation {σ ε : Type}
    (nv : σ → Except ε Int × σ) (s s1 : σ) (e : ε)
    (h : nv s = (Except.error e, s1)) :
    (AdcChannel.ofNv nv).measure_uv s = (Except.error e, s1) ∧
    (AdcChannel.ofNv nv).measure_mv s = (Except.error e, s1) := by
  have hu := measure_uv_default_eq_err nv s s1 e h
  exact ⟨hu, measure_mv_default_eq_err (measure_uv_default nv) s s1 e hu⟩

/-- Witness for C3 at a channel that always fails with `Other`. -/
theorem derived_error_propagation_witness :
    (AdcChannel.ofNv
        (fun s : Unit =>
          ((Except.error ErrorKind.Other : Except ErrorKind Int), s))).measure_uv
      () = (Except.error ErrorKind.Other, ()) ∧
    (AdcChannel.ofNv
        (fun s : Unit =>
          ((Except.error ErrorKind.Other : Except ErrorKind Int), s))).measure_mv
      () = (Except.error ErrorKind.Other, ()) :=
  derived_error_propagation
    (fun s : Unit => ((Except.error ErrorKind.Other : Except ErrorKind Int), s))
    () () ErrorKind.Other rfl

/-- C4: for every channel implementation and state, the blanket
`&mut T` forwarding implementation gives each of the three operations
exactly the same result (same value or error, same state) as the
underlying implementation. -/
theorem mutRef_forwarding {σ ε : Type} (c : AdcChannel σ ε) (s : σ) :
    (AdcChannel.mutRef c).measure_nv s = c.measure_nv s ∧
    (AdcChannel.mutRef c).measure_uv s = c.measure_uv s ∧
    (AdcChannel.mutRef c).measure_mv s = c.measure_mv s :=
  ⟨rfl, rfl, rfl⟩

/-- C5: `ErrorKind` satisfies the `Error` capability with `kind`
returning the value itself: for every `ErrorKind` value `k`, `k.kind`
equals `k`, so self-classification is a fixed point. -/
theorem errorKind_kind_fixpoint (k : ErrorKind) :
    ErrorKind.kind k = k ∧ errorKindError.kind k = k :=
  ⟨rfl, rfl⟩

/-- C6: concrete end-to-end scenario with the default derived
operations: if `measure_nv` returns `Ok 3300000000` then `measure_uv`
returns `Ok 3300000` and `measure_mv` returns `Ok 3300`. -/
theorem scenario_3v3 {σ ε : Type} (nv : σ → Except ε Int × σ) (s s1 : σ)
    (h : nv s = (Except.ok 3300000000, s1)) :
    ((AdcChannel.ofNv nv).measure_uv s).1 = Except.ok 3300000 ∧
    ((AdcChannel.ofNv nv).measure_mv s).1 = Except.ok 3300 := by
  have hu := measure_uv_default_eq_ok nv s s1 3300000000 h
  have hval : wrap_i32 (Int.tdiv 3300000000 1000) = 3300000 := by decide
  rw [hval] at hu
  have hm := measure_mv_default_eq_ok (measure_uv_default nv) s s1 3300000 hu
  have hval2 : Int.tdiv (3300000 : Int) 1000 = (3300 : Int) := by decide
  rw [hval2] at hm
  constructor
  · show (measure_uv_default nv s).1 = _
    rw [hu]
  · show (measure_mv_default (measure_uv_default nv) s).1 = _
    rw [hm]

/-- Witness for C6 at a channel that always reads 3300000000 nV. -/
theorem scenario_3v3_witness :
    ((AdcChannel.ofNv
        (fun s : Unit =>
          ((Except.ok 3300000000 : Except ErrorKind Int), s))).measure_uv
      ()).1 = Except.ok 3300000 ∧
    ((AdcChannel.ofNv
        (fun s : Unit =>
          ((Except.ok 3300000000 : Except ErrorKind Int), s))).measure_mv
      ()).1 = Except.ok 3300 :=
  scenario_3v3
    (fun s : Unit => ((Except.ok 3300000000 : Except ErrorKind Int), s))
    () () rfl

/-- C7: the type `Infallible` satisfies the `Error` capability (the
record `infallibleError` exists), and the type has no inhabitants, so
its `kind` body can never actually be invoked in any valid execution:
the guarantee comes from the type system, not from runtime logic. -/
theorem infallible_uninhabited :
    Nonempty (ErrorTrait Infallible) ∧ IsEmpty Infallible :=
  ⟨⟨infallibleError⟩, ⟨fun e => nomatch e⟩⟩

/-- C8: `ErrorKind` supports equality (`beq` decides propositional
equality) and ordering (`cmp` is reflexive-equal exactly on equal
values and transitive in its strict part), and its textual rendering
maps `Other` to the documented string. -/
theorem errorKind_eq_ord_display :
    (∀ a b : ErrorKind, ErrorKind.beq a b = true ↔ a = b) ∧
    (∀ a b : ErrorKind, ErrorKind.cmp a b = Ordering.eq ↔ a = b) ∧
    (∀ a b c : ErrorKind,
      ErrorKind.cmp a b = Ordering.lt → ErrorKind.cmp b c = Ordering.lt →
      ErrorKind.cmp a c = Ordering.lt) ∧
    ErrorKind.fmt ErrorKind.Other =
      "A different error occurred. The original error may contain more information" := by
  refine ⟨?_, ?_, ?_, rfl⟩
  · intro a b
    cases a
    cases b
    simp [ErrorKind.beq]
  · intro a b
    cases a
    cases b
    simp [ErrorKind.cmp]
  · intro a b c hab hbc
    cases a
    cases b
    simp [ErrorKind.cmp] at hab

/-- C9: totality of the derived operations: on any in-range `i64`
reading the divisions by 1000 stay representable (in particular
`i64::MIN / 1000` is a valid `i64` and `i32::MIN / 1000` a valid
`i32`), the default `measure_uv` and `measure_mv` succeed with in-range
`i32` values, and truncation is a defined numeric result, never an
error or a panic. -/
theorem no_panic_total {σ ε : Type} (nv : σ → Except ε Int × σ)
    (s s1 : σ) (n : Int) (hn : isI64 n) (h : nv s = (Except.ok n, s1)) :
    isI64 (Int.tdiv n 1000) ∧
    (∃ u, ((AdcChannel.ofNv nv).measure_uv s).1 = Except.ok u ∧ isI32 u) ∧
    (∃ m, ((AdcChannel.ofNv nv).measure_mv s).1 = Except.ok m ∧ isI32 m) ∧
    isI64 (Int.tdiv (-9223372036854775808) 1000) ∧
    isI32 (Int.tdiv (-2147483648) 1000) := by
  obtain ⟨hn1, hn2⟩ := hn
  have hu := measure_uv_default_eq_ok nv s s1 n h
  have hw := wrap_i32_range (Int.tdiv n 1000)
  have hm := measure_mv_default_eq_ok (measure_uv_default nv) s s1
    (wrap_i32 (Int.tdiv n 1000)) hu
  refine ⟨?_, ⟨wrap_i32 (Int.tdiv n 1000), ?_, hw⟩,
    ⟨Int.tdiv (wrap_i32 (Int.tdiv n 1000)) 1000, ?_, ?_⟩, by decide, by decide⟩
  · exact tdiv_1000_range n 9223372036854775808 hn1 hn2
  · show (measure_uv_default nv s).1 = _
    rw [hu]
  · show (measure_mv_default (measure_uv_default nv) s).1 = _
    rw [hm]
  · exact tdiv_1000_range (wrap_i32 (Int.tdiv n 1000)) 2147483648 hw.1 hw.2

/-- Witness for C9: the boundary divisions are representable, obtained
by applying the totality theorem at a concrete channel reading 5 nV. -/
theorem no_panic_total_witness :
    isI64 (Int.tdiv (-9223372036854775808) 1000) ∧
    isI32 (Int.tdiv (-2147483648) 1000) :=
  (no_panic_total
    (fun s : Unit => ((Except.ok 5 : Except ErrorKind Int), s))
    () () 5 (by decide) rfl).2.2.2

/-- C10: the 32-bit narrowing in the default `measure_uv` is a
two's-complement wrapping cast (the 64-bit quotient reduced modulo
2^32 and reinterpreted as signed), not saturation and not an error; in
particular a reading of 3000000000000 nV (3000 V) makes `measure_uv`
silently return the wrapped, sign-flipped value −1294967296. -/
theorem narrowing_is_wrapping {σ ε : Type}
    (nv : σ → Except ε Int × σ) (s s1 : σ) (n : Int)
    (h : nv s = (Except.ok n, s1)) :
    ((AdcChannel.ofNv nv).measure_uv s).1 =
      Except.ok
        (if Int.tdiv n 1000 % 4294967296 < 2147483648
         then Int.tdiv n 1000 % 4294967296
         else Int.tdiv n 1000 % 4294967296 - 4294967296) ∧
    (n = 3000000000000 →
      ((AdcChannel.ofNv nv).measure_uv s).1 = Except.ok (-1294967296)) := by
  have hu := measure_uv_default_eq_ok nv s s1 n h
  constructor
  · show (measure_uv_default nv s).1 = _
    rw [hu]
    exact congrArg Except.ok (wrap_i32_eq_mod (Int.tdiv n 1000))
  · rintro rfl
    have hval : wrap_i32 (Int.tdiv 3000000000000 1000) = (-1294967296 : Int) := by
      decide
    rw [hval] at hu
    show (measure_uv_default nv s).1 = _
    rw [hu]

/-- Witness for C10 at the concrete out-of-range reading 3000 V. -/
theorem narrowing_is_wrapping_witness :
    ((AdcChannel.ofNv
        (fun s : Unit =>
          ((Except.ok 3000000000000 : Except ErrorKind Int), s))).measure_uv
      ()).1 = Except.ok (-1294967296) :=
  (narrowing_is_wrapping
    (fun s : Unit => ((Except.ok 3000000000000 : Except ErrorKind Int), s))
    () () 3000000000000 rfl).2 rfl

end EmbeddedHal.Adc
